import Mathlib

/-!
# Verification of the calendar editor's store (`useAppStore`)

Shallow embedding of the client-side document/state model of the calendar
editor: the data model (`types.ts`) and the mutation engine (the zustand
store).  JavaScript numbers are modelled as rationals (all values occurring
in this code are exact decimals), JS `undefined`/absent fields as `Option`,
the `uuidv4()` generator as a counter threaded through the state, and
`Date` timestamps as an explicit `now : Nat` parameter.
-/

namespace Calendars

/-- JS numbers, modelled as exact rationals (no float rounding occurs in the
code under study: values are only constructed, copied, and compared). -/
abbrev Num := ℚ

/-- `Frame`: normalized rectangle `{x, y, w, h, lockAspect}` (types.ts). -/
structure Frame where
  x : Num
  y : Num
  w : Num
  h : Num
  lockAspect : Bool
deriving DecidableEq, Repr

/-- The `crop` sub-rectangle of `ImageTransform` (types.ts). -/
structure Crop where
  x : Num
  y : Num
  w : Num
  h : Num
deriving DecidableEq, Repr

/-- `ImageTransform` (types.ts). -/
structure ImageTransform where
  x : Num
  y : Num
  scale : Num
  rotation : Num
  crop : Crop
deriving DecidableEq, Repr

/-- `GridStyle` (types.ts); `weekdayStart : 0 | 1` as a `Nat`. -/
structure GridStyle where
  typographyScale : Num
  weekdayStart : Nat
  language : String
  showWeekNumbers : Bool
deriving DecidableEq, Repr

/-- `PageMargins` (types.ts). -/
structure PageMargins where
  top : Num
  right : Num
  bottom : Num
  left : Num
deriving DecidableEq, Repr

/-- The `month` field of a `MonthPage`: `number | 'cover'`. -/
inductive MonthTag where
  | cover : MonthTag
  | num : Nat → MonthTag
deriving DecidableEq, Repr

/-- The `layout` field of a `MonthPage`. -/
structure PageLayout where
  imageFrame : Frame
  calendarGridFrame : Frame
deriving DecidableEq, Repr

/-- `MonthPage` (types.ts).  Optional TS fields are `Option`s. -/
structure MonthPage where
  month : MonthTag
  layout : PageLayout
  assignedImageId : Option String
  imageTransform : ImageTransform
  showGrid : Bool
  gridStyle : GridStyle
  coverTextTop : Option String := none
  coverTextBottom : Option String := none
  margins : Option PageMargins := none
deriving DecidableEq, Repr

/-- `CalendarFormat` (types.ts); the unit `'mm' | 'px'` as a Bool flag. -/
structure CalendarFormat where
  width : Num
  height : Num
  unitIsMm : Bool
deriving DecidableEq, Repr

/-- `CalendarType` (types.ts). -/
inductive CalendarType where
  | wall : CalendarType
  | desk : CalendarType
deriving DecidableEq, Repr

/-- `Orientation` (types.ts). -/
inductive Orientation where
  | portrait : Orientation
  | landscape : Orientation
deriving DecidableEq, Repr

/-- `ImageFit` (types.ts). -/
inductive ImageFit where
  | cover : ImageFit
  | contain : ImageFit
  | stretch : ImageFit
deriving DecidableEq, Repr

/-- `CalendarProject` (types.ts).  `monthsPerPage` is declared `1 | 2` in the
type but the store explicitly guards against it being `undefined`/`null` at
runtime (backward compatibility), so it is modelled as `Option Nat`.
Timestamps are opaque `Nat` ticks. -/
structure CalendarProject where
  id : String
  title : String
  calendarType : CalendarType
  format : CalendarFormat
  orientation : Orientation
  bleed : Num
  margin : Num
  months : List MonthPage
  monthsPerPage : Option Nat
  selectedGroupId : Option String := none
  fontFamily : Option String := none
  coverImageFit : Option ImageFit := none
  monthsImageFit : Option ImageFit := none
  createdAt : Nat
  updatedAt : Nat
deriving DecidableEq, Repr

/-- `ImageAsset` (types.ts); `sourceType` as a Bool flag (`upload`/`url`). -/
structure ImageAsset where
  id : String
  name : String
  sourceTypeIsUpload : Bool
  url : String
  thumbnailUrl : Option String := none
  originalWidth : Num
  originalHeight : Num
  createdAt : Nat
  tags : List String
  groupIds : List String
deriving DecidableEq, Repr

/-- `ImageGroup` (types.ts). -/
structure ImageGroup where
  id : String
  name : String
  color : Option String := none
  createdAt : Nat
  imageIds : List String
deriving DecidableEq, Repr

/-- The `type` discriminator of a `HistoryAction`. -/
inductive HistoryType where
  | frame : HistoryType
  | transform : HistoryType
  | assign : HistoryType
  | project : HistoryType
deriving DecidableEq, Repr

/-- The heterogeneous `before`/`after` payloads (`unknown` in TS) actually
stored by the engine: a frame, a transform, or an image-id assignment. -/
inductive HistVal where
  | frame : Frame → HistVal
  | transform : ImageTransform → HistVal
  | assign : Option String → HistVal
deriving DecidableEq, Repr

/-- `HistoryAction` (types.ts); the `uuidv4()` id is modelled as a `Nat`. -/
structure HistoryAction where
  id : Nat
  actionType : HistoryType
  timestamp : Nat
  before : HistVal
  after : HistVal
  pageIndex : Option Int := none
deriving DecidableEq, Repr

/-- `AppStateSnapshot` (types.ts). -/
structure AppStateSnapshot where
  version : Nat
  projects : List CalendarProject
  assets : List ImageAsset
  groups : List ImageGroup
  activeProjectId : Option String
  activePageIndex : Int
  lastUpdated : Nat
deriving DecidableEq, Repr

/-- The mutable fields of the zustand `AppState` (useAppStore).  `nextId`
models the `uuidv4()` source as a deterministic counter. -/
structure AppState where
  projects : List CalendarProject
  activeProjectId : Option String
  activePageIndex : Int
  assets : List ImageAsset
  groups : List ImageGroup
  selectedAssetIds : List String
  selectedFrameType : Option Bool := none
  imageFit : ImageFit := .cover
  isPreviewMode : Bool := false
  history : List HistoryAction
  historyIndex : Int
  nextId : Nat := 0
deriving DecidableEq, Repr

/-- The initial zustand state (store lines 751–762). -/
def initialState : AppState where
  projects := []
  activeProjectId := none
  activePageIndex := 0
  assets := []
  groups := []
  selectedAssetIds := []
  history := []
  historyIndex := -1

/-- `DEFAULT_IMAGE_TRANSFORM` (types.ts). -/
def DEFAULT_IMAGE_TRANSFORM : ImageTransform :=
  { x := 0, y := 0, scale := 1, rotation := 0,
    crop := { x := 0, y := 0, w := 1, h := 1 } }

/-- `DEFAULT_GRID_STYLE` (types.ts). -/
def DEFAULT_GRID_STYLE : GridStyle :=
  { typographyScale := 1, weekdayStart := 0, language := "en",
    showWeekNumbers := false }

/-- `DEFAULT_IMAGE_FRAME` (types.ts). -/
def DEFAULT_IMAGE_FRAME : Frame :=
  { x := 5/100, y := 5/100, w := 90/100, h := 55/100, lockAspect := false }

/-- `DEFAULT_GRID_FRAME` (types.ts). -/
def DEFAULT_GRID_FRAME : Frame :=
  { x := 5/100, y := 65/100, w := 90/100, h := 30/100, lockAspect := false }

/-- `DEFAULT_COVER_MARGINS` (store line 690). -/
def DEFAULT_COVER_MARGINS : PageMargins :=
  { top := 10, right := 10, bottom := 10, left := 10 }

/-- `DEFAULT_MONTH_MARGINS` (store line 691). -/
def DEFAULT_MONTH_MARGINS : PageMargins :=
  { top := 10, right := 10, bottom := 10, left := 10 }

/-- `MAX_HISTORY` (store line 613). -/
def MAX_HISTORY : Nat := 20

/-- The cover page pushed by `createDefaultMonthPages` (store lines 697–708). -/
def coverPageDefault : MonthPage :=
  { month := .cover,
    layout :=
      { imageFrame := { x := 10/100, y := 15/100, w := 80/100, h := 70/100, lockAspect := false },
        calendarGridFrame := { x := 10/100, y := 88/100, w := 80/100, h := 8/100, lockAspect := false } },
    assignedImageId := none,
    imageTransform := DEFAULT_IMAGE_TRANSFORM,
    showGrid := false,
    gridStyle := DEFAULT_GRID_STYLE,
    margins := some DEFAULT_COVER_MARGINS }

/-- A default month page for month `m` (store lines 713–724 / 729–740; the
two loop bodies construct identical objects). -/
def monthPageDefault (m : Nat) : MonthPage :=
  { month := .num m,
    layout :=
      { imageFrame := DEFAULT_IMAGE_FRAME,
        calendarGridFrame := DEFAULT_GRID_FRAME },
    assignedImageId := none,
    imageTransform := DEFAULT_IMAGE_TRANSFORM,
    showGrid := true,
    gridStyle := DEFAULT_GRID_STYLE,
    margins := some DEFAULT_MONTH_MARGINS }

/-- `createDefaultMonthPages(monthsPerPage)` (store lines 693–745): one cover
page, then `1..12` for one month per page (`monthsPerPage === 1`), else
`1,3,5,7,9,11` (first month of each pair).  The TS default argument `= 2`
is applied at call sites via `Option.getD 2`. -/
def createDefaultMonthPages (monthsPerPage : Nat) : List MonthPage :=
  coverPageDefault ::
    (if monthsPerPage = 1 then
      ((List.range 12).map fun i => monthPageDefault (i + 1))
    else
      [1, 3, 5, 7, 9, 11].map monthPageDefault)

/-- JS `Array.prototype.slice(0, e)` with a possibly negative end index. -/
def jsSliceTo (l : List α) (e : Int) : List α :=
  if e < 0 then l.take ((l.length : Int) + e).toNat else l.take e.toNat

/-- JS array indexing `l[i]` by a signed number (negative ⇒ `undefined`). -/
def jsIndex (l : List α) (i : Int) : Option α :=
  if i < 0 then none else l[i.toNat]?

/-- JS `[...new Set(l)]`: deduplicate, keeping the first occurrence of each
element.  `seen` accumulates the elements already emitted. -/
def jsSetDedupAux [DecidableEq α] (seen : List α) : List α → List α
  | [] => []
  | x :: xs =>
    if x ∈ seen then jsSetDedupAux seen xs
    else x :: jsSetDedupAux (x :: seen) xs

/-- JS `[...new Set(l)]` (first-occurrence deduplication). -/
def jsSetDedup [DecidableEq α] (l : List α) : List α := jsSetDedupAux [] l

/-- The fields of a TS `Partial<CalendarProject>` that the engine and its
callers ever pass to `updateProject` (structural fields `months` and
`monthsPerPage`, plus representative scalar fields).  `none` = field absent. -/
structure ProjectUpdates where
  id : Option String := none
  title : Option String := none
  bleed : Option Num := none
  margin : Option Num := none
  fontFamily : Option String := none
  months : Option (List MonthPage) := none
  monthsPerPage : Option Nat := none
deriving DecidableEq, Repr

/-- The object spread `{ ...p, ...updates, updatedAt: now }` (store line 836). -/
def applyUpdates (p : CalendarProject) (u : ProjectUpdates) (now : Nat) : CalendarProject :=
  { p with
    id := u.id.getD p.id
    title := u.title.getD p.title
    bleed := u.bleed.getD p.bleed
    margin := u.margin.getD p.margin
    fontFamily := match u.fontFamily with | some f => some f | none => p.fontFamily
    months := u.months.getD p.months
    monthsPerPage := match u.monthsPerPage with | some m => some m | none => p.monthsPerPage
    updatedAt := now }

/-- `updates.monthsPerPage !== undefined ? updates.monthsPerPage : p.monthsPerPage`
(store lines 840, 846). -/
def effectiveMpp (p : CalendarProject) (u : ProjectUpdates) : Option Nat :=
  match u.monthsPerPage with
  | some m => some m
  | none => p.monthsPerPage

/-- `mpp === 1 ? 13 : 7` on a possibly-undefined `monthsPerPage`
(store lines 778, 840); `undefined === 1` is false in JS. -/
def expectedCountFor (mpp : Option Nat) : Nat :=
  if mpp = some 1 then 13 else 7

/-- `updates.monthsPerPage !== undefined && updates.monthsPerPage !== p.monthsPerPage`
(store line 842). -/
def changedMpp (p : CalendarProject) (u : ProjectUpdates) : Bool :=
  match u.monthsPerPage with
  | some m => p.monthsPerPage ≠ some m
  | none => false

/-- The cover slot of the reconciliation logic (store lines 854–858): keep
the old cover page when one exists, else the freshly generated one. -/
def coverSlot (existingPages : List MonthPage) (newPage : MonthPage) : MonthPage :=
  match existingPages.find? (fun pg => pg.month == MonthTag.cover) with
  | some existingCover => existingCover
  | none => newPage

/-- A month slot of the reconciliation logic (store lines 860–868): keep the
old page with the same month number when one exists, else the generated
default. -/
def monthSlot (existingPages : List MonthPage) (newPage : MonthPage) : MonthPage :=
  match newPage.month with
  | .num m =>
    match existingPages.find? (fun pg => pg.month == MonthTag.num m) with
    | some existingPage => existingPage
    | none => newPage
  | .cover => newPage

/-- The preservation map of the reconciliation logic (store lines 853–869):
slot 0 keeps the old cover when one exists; a month-numbered slot keeps the
old page with the same month number when one exists. -/
def reconcilePages (existingPages newPages : List MonthPage) : List MonthPage :=
  newPages.enum.map fun ip =>
    if ip.1 = 0 then coverSlot existingPages ip.2 else monthSlot existingPages ip.2

/-- The body of `updateProject`'s `projects.map` (store lines 834–882) for a
single project: returns the updated project and, when the regeneration branch
clamps the active page index, the clamped value (the nested `set`, line 875;
its condition reads the pre-call state captured by the closure). -/
def projStep (state : AppState) (id : String) (u : ProjectUpdates) (now : Nat)
    (p : CalendarProject) : CalendarProject × Option Int :=
  if p.id = id then
    let updated := applyUpdates p u now
    let expectedPageCount := expectedCountFor (effectiveMpp p u)
    if changedMpp p u = true ∨ p.months.length ≠ expectedPageCount then
      let newPages := createDefaultMonthPages ((effectiveMpp p u).getD 2)
      let preservedPages := reconcilePages p.months newPages
      let clamp :=
        if state.activeProjectId = some id ∧
            state.activePageIndex ≥ (preservedPages.length : Int) then
          some (max 0 ((preservedPages.length : Int) - 1))
        else none
      ({ updated with months := preservedPages }, clamp)
    else
      (updated, none)
  else
    (p, none)

/-- `updateProject(id, updates)` (store lines 832–885). -/
def updateProject (s : AppState) (id : String) (u : ProjectUpdates) (now : Nat) : AppState :=
  let stepped := s.projects.map (projStep s id u now)
  { s with
    projects := stepped.map Prod.fst
    activePageIndex :=
      stepped.foldl (fun acc pr => match pr.2 with | some v => v | none => acc)
        s.activePageIndex }

/-- `pushHistory(action)` (store lines 1194–1213): truncate the redo tail,
append a fresh entry, evict from the front past `MAX_HISTORY`. -/
def pushHistory (s : AppState) (ty : HistoryType) (before after : HistVal)
    (pageIndex : Option Int) (now : Nat) : AppState :=
  let newHistory :=
    jsSliceTo s.history (s.historyIndex + 1) ++
      [{ id := s.nextId, actionType := ty, timestamp := now,
         before := before, after := after, pageIndex := pageIndex }]
  let trimmed := newHistory.drop (newHistory.length - MAX_HISTORY)
  { s with
    history := trimmed
    historyIndex := (trimmed.length : Int) - 1
    nextId := s.nextId + 1 }

/-- `getActiveProject()` (store lines 765–789).  Not a pure read: it heals a
missing `monthsPerPage` and a mismatched page count by calling
`updateProject`, so it returns the found project together with the possibly
mutated state. -/
def getActiveProjectM (s : AppState) (now : Nat) : Option CalendarProject × AppState :=
  match s.activeProjectId with
  | none => (none, s)
  | some aid =>
    match s.projects.find? (fun p => p.id == aid) with
    | none => (none, s)
    | some project =>
      match project.monthsPerPage with
      | none =>
        let s1 := updateProject s project.id { monthsPerPage := some 1 } now
        (some { project with monthsPerPage := some 1 }, s1)
      | some mpp =>
        if project.months.length ≠ (if mpp = 1 then 13 else 7) then
          let s1 := updateProject s project.id { monthsPerPage := some mpp } now
          (match s1.projects.find? (fun p => p.id == aid) with
           | some updatedProject => some updatedProject
           | none => some project, s1)
        else
          (some project, s)

/-- `assignImageToPage(pageIndex, imageId)` (store lines 951–973). -/
def assignImageToPage (s : AppState) (pageIndex : Int) (imageId : Option String)
    (now : Nat) : AppState :=
  let pr := getActiveProjectM s now
  match pr.1 with
  | none => pr.2
  | some project =>
    match jsIndex project.months pageIndex with
    | none => pr.2
    | some page =>
      let s2 := pushHistory pr.2 .assign (.assign page.assignedImageId)
        (.assign imageId) (some pageIndex) now
      let updatedMonths := project.months.set pageIndex.toNat
        { page with assignedImageId := imageId,
                    imageTransform := DEFAULT_IMAGE_TRANSFORM }
      updateProject s2 project.id { months := some updatedMonths } now

/-- `addImagesToGroup(groupId, imageIds)` (store lines 1150–1163). -/
def addImagesToGroup (s : AppState) (groupId : String) (imageIds : List String) : AppState :=
  { s with
    groups := s.groups.map fun g =>
      if g.id = groupId then { g with imageIds := jsSetDedup (g.imageIds ++ imageIds) }
      else g
    assets := s.assets.map fun a =>
      if a.id ∈ imageIds ∧ groupId ∉ a.groupIds then
        { a with groupIds := a.groupIds ++ [groupId] }
      else a }

/-- `removeImagesFromGroup(groupId, imageIds)` (store lines 1165–1178). -/
def removeImagesFromGroup (s : AppState) (groupId : String) (imageIds : List String) : AppState :=
  { s with
    groups := s.groups.map fun g =>
      if g.id = groupId then
        { g with imageIds := g.imageIds.filter (fun i => i ∉ imageIds) }
      else g
    assets := s.assets.map fun a =>
      if a.id ∈ imageIds then
        { a with groupIds := a.groupIds.filter (fun gid => gid ≠ groupId) }
      else a }

/-- `deleteGroup(id)` (store lines 1139–1148). -/
def deleteGroup (s : AppState) (id : String) : AppState :=
  { s with
    groups := s.groups.filter (fun g => g.id ≠ id)
    assets := s.assets.map fun a =>
      { a with groupIds := a.groupIds.filter (fun gid => gid ≠ id) } }

/-- First phase of `deleteAsset` (store lines 1056–1062): look the asset up
and remove it from each group it references. -/
def deleteAssetGroups (s : AppState) (id : String) : AppState :=
  match s.assets.find? (fun a => a.id == id) with
  | some asset =>
    asset.groupIds.foldl (fun st groupId => removeImagesFromGroup st groupId [id]) s
  | none => s

/-- Second phase of `deleteAsset` (store lines 1064–1072): for each project
(snapshotted after the first phase), null out the pages assigned to the
asset; the `updatedMonths.some((m,i) => m !== project.months[i])` reference
check holds exactly when some page had `assignedImageId === id`, because
`.map` freshly allocates exactly those pages. -/
def deleteAssetPages (s1 : AppState) (id : String) (now : Nat) : AppState :=
  s1.projects.foldl
    (fun st project =>
      let updatedMonths := project.months.map fun page =>
        if page.assignedImageId = some id then { page with assignedImageId := none }
        else page
      if project.months.any (fun page => page.assignedImageId == some id) then
        updateProject st project.id { months := some updatedMonths } now
      else st)
    s1

/-- `deleteAsset(id)` (store lines 1055–1078): group cleanup, then page
cleanup, then removal of the asset record and its selection entry. -/
def deleteAsset (s : AppState) (id : String) (now : Nat) : AppState :=
  let s2 := deleteAssetPages (deleteAssetGroups s id) id now
  { s2 with
    assets := s2.assets.filter (fun a => a.id ≠ id)
    selectedAssetIds := s2.selectedAssetIds.filter (fun aid => aid ≠ id) }

/-- `selectAssetRange(startId, endId, assetIds?)` (store lines 1090–1108). -/
def selectAssetRange (s : AppState) (startId endId : String)
    (assetIds : Option (List String)) : AppState :=
  let allIds := assetIds.getD (s.assets.map (fun a => a.id))
  match allIds.findIdx? (fun i => i == startId), allIds.findIdx? (fun i => i == endId) with
  | some startIndex, some endIndex =>
    let minIndex := min startIndex endIndex
    let maxIndex := max startIndex endIndex
    let rangeIds := (allIds.drop minIndex).take (maxIndex + 1 - minIndex)
    { s with selectedAssetIds := jsSetDedup (s.selectedAssetIds ++ rangeIds) }
  | _, _ => s

/-- `undo()` (store lines 1215–1224): only moves `historyIndex`. -/
def undo (s : AppState) : AppState :=
  if s.historyIndex < 0 then s else { s with historyIndex := s.historyIndex - 1 }

/-- `redo()` (store lines 1226–1231): only moves `historyIndex`. -/
def redo (s : AppState) : AppState :=
  if s.historyIndex ≥ (s.history.length : Int) - 1 then s
  else { s with historyIndex := s.historyIndex + 1 }

/-- The `filter((g, index, self) => index === self.findIndex(...))` idiom of
`loadSnapshot` (store lines 1263–1268): keep each group whose key has not
occurred earlier in the list; `seen` accumulates the keys already kept (an
element is dropped exactly when its key occurred earlier, kept or not, since
a dropped element's key was itself already in `seen`). -/
def keepFirstByKey (key : ImageGroup → String) : List String → List ImageGroup → List ImageGroup
  | _, [] => []
  | seen, g :: gs =>
    if key g ∈ seen then keepFirstByKey key seen gs
    else g :: keepFirstByKey key (key g :: seen) gs

/-- `loadSnapshot(snapshot)` (store lines 1261–1277): deduplicate groups by
id, then by name, keeping first occurrences; replace the document collections
(`snapshot.x || []` and `|| 0` are the identity on the typed snapshot). -/
def loadSnapshot (s : AppState) (snapshot : AppStateSnapshot) : AppState :=
  let uniqueById := keepFirstByKey (fun g => g.id) [] snapshot.groups
  let uniqueByName := keepFirstByKey (fun g => g.name) [] uniqueById
  { s with
    projects := snapshot.projects
    assets := snapshot.assets
    groups := uniqueByName
    activeProjectId := snapshot.activeProjectId
    activePageIndex := snapshot.activePageIndex }

/-! ## Helper lemmas -/

theorem mem_jsSetDedupAux [DecidableEq α] (seen : List α) (l : List α) (x : α) :
    x ∈ jsSetDedupAux seen l ↔ x ∈ l ∧ x ∉ seen := by
  induction l generalizing seen with
  | nil => simp [jsSetDedupAux]
  | cons y ys ih =>
    by_cases hy : y ∈ seen
    · simp only [jsSetDedupAux, if_pos hy, ih, List.mem_cons]
      constructor
      · rintro ⟨hx, hs⟩; exact ⟨Or.inr hx, hs⟩
      · rintro ⟨hor, hs⟩
        rcases hor with rfl | hx
        · exact absurd hy hs
        · exact ⟨hx, hs⟩
    · simp only [jsSetDedupAux, if_neg hy, List.mem_cons, ih]
      constructor
      · rintro (rfl | ⟨hx, hs⟩)
        · exact ⟨Or.inl rfl, hy⟩
        · exact ⟨Or.inr hx, fun hc => hs (Or.inr hc)⟩
      · rintro ⟨rfl | hx, hs⟩
        · exact Or.inl rfl
        · by_cases hxy : x = y
          · exact Or.inl hxy
          · exact Or.inr ⟨hx, by simp [hxy, hs]⟩

theorem mem_jsSetDedup [DecidableEq α] (l : List α) (x : α) :
    x ∈ jsSetDedup l ↔ x ∈ l := by
  simp [jsSetDedup, mem_jsSetDedupAux]

theorem foldl_keep_acc (l : List α) (acc : Int) :
    l.foldl (fun (a : Int) (_ : α) => a) acc = acc := by
  induction l generalizing acc with
  | nil => rfl
  | cons x xs ih => exact ih acc

/-- `updateProject` never touches the asset/group/selection/history state. -/
theorem updateProject_frame (s : AppState) (id : String) (u : ProjectUpdates) (now : Nat) :
    (updateProject s id u now).assets = s.assets ∧
    (updateProject s id u now).groups = s.groups ∧
    (updateProject s id u now).selectedAssetIds = s.selectedAssetIds ∧
    (updateProject s id u now).activeProjectId = s.activeProjectId ∧
    (updateProject s id u now).history = s.history ∧
    (updateProject s id u now).historyIndex = s.historyIndex ∧
    (updateProject s id u now).nextId = s.nextId := by
  simp [updateProject]

/-- `pushHistory` only touches `history`, `historyIndex` and the id source. -/
theorem pushHistory_frame (s : AppState) (ty : HistoryType) (b a : HistVal)
    (pi : Option Int) (now : Nat) :
    (pushHistory s ty b a pi now).projects = s.projects ∧
    (pushHistory s ty b a pi now).activeProjectId = s.activeProjectId ∧
    (pushHistory s ty b a pi now).activePageIndex = s.activePageIndex ∧
    (pushHistory s ty b a pi now).assets = s.assets ∧
    (pushHistory s ty b a pi now).groups = s.groups := by
  simp [pushHistory]

/-- `projStep` does not change a project's id when the update carries none. -/
theorem projStep_id (s : AppState) (id : String) (u : ProjectUpdates) (now : Nat)
    (p : CalendarProject) (hu : u.id = none) :
    ((projStep s id u now p).1).id = p.id := by
  unfold projStep
  by_cases h : p.id = id
  · simp only [if_pos h]
    split
    · simp [applyUpdates, hu]
    · simp [applyUpdates, hu]
  · simp [if_neg h]

/-- Searching the project list by id after `updateProject` finds the stepped
image of the project the same search found before. -/
theorem find?_updateProject (s : AppState) (id : String) (u : ProjectUpdates)
    (now : Nat) (pid : String) (hu : u.id = none) :
    (updateProject s id u now).projects.find? (fun q => q.id == pid) =
      (s.projects.find? (fun q => q.id == pid)).map
        (fun p => (projStep s id u now p).1) := by
  have hmap : (updateProject s id u now).projects =
      s.projects.map (fun p => (projStep s id u now p).1) := by
    simp [updateProject, List.map_map]
  rw [hmap, List.find?_map]
  have hpred : ((fun q => q.id == pid) ∘ fun p => (projStep s id u now p).1) =
      (fun q : CalendarProject => q.id == pid) := by
    funext p
    simp [Function.comp, projStep_id s id u now p hu]
  rw [hpred]

/-! ## Concrete fixtures (used by witnesses and counterexamples) -/

/-- A well-formed project with `monthsPerPage = 2` and the default 7 pages. -/
def sampleProject2 : CalendarProject :=
  { id := "p1", title := "My 2025 Calendar", calendarType := .wall,
    format := { width := 210, height := 297, unitIsMm := true },
    orientation := .portrait, bleed := 3, margin := 10,
    months := createDefaultMonthPages 2, monthsPerPage := some 2,
    createdAt := 0, updatedAt := 0 }

/-- A well-formed project with `monthsPerPage = 1` whose month-5 page has
`assignedImageId = "X"`. -/
def sampleProject1 : CalendarProject :=
  { sampleProject2 with
    monthsPerPage := some 1,
    months := (createDefaultMonthPages 1).map fun pg =>
      if pg.month = MonthTag.num 5 then { pg with assignedImageId := some "X" } else pg }

/-- A store holding `sampleProject2` as the active project. -/
def sampleState2 : AppState :=
  { initialState with projects := [sampleProject2], activeProjectId := some "p1" }

/-- A store holding `sampleProject1` as the active project. -/
def sampleState1 : AppState :=
  { initialState with projects := [sampleProject1], activeProjectId := some "p1" }

/-- A sample asset (in no group). -/
def sampleAsset : ImageAsset :=
  { id := "a1", name := "Sample 1", sourceTypeIsUpload := false, url := "u1",
    originalWidth := 800, originalHeight := 600, createdAt := 0,
    tags := [], groupIds := [] }

/-- A sample group containing `sampleAsset`. -/
def sampleGroup : ImageGroup :=
  { id := "g1", name := "Nature", createdAt := 0, imageIds := ["a1"] }

/-- A store with one asset and one group, related symmetrically. -/
def sampleLibraryState : AppState :=
  { initialState with
    assets := [{ sampleAsset with groupIds := ["g1"] }]
    groups := [sampleGroup] }

/-! ## C9 — undo/redo only move historyIndex -/

/-- **C9.** `undo()` and `redo()` only move `historyIndex` — `undo` decrements
it when `historyIndex ≥ 0`, `redo` increments it when
`historyIndex < history.length - 1` — and leave `projects`, `assets`,
`groups`, `activeProjectId`, `activePageIndex` and the history entries
themselves unchanged; the recorded before/after values are never reapplied
to the document. -/
theorem undo_redo_only_move_historyIndex (s : AppState) :
    (undo s).projects = s.projects ∧
    (undo s).assets = s.assets ∧
    (undo s).groups = s.groups ∧
    (undo s).activeProjectId = s.activeProjectId ∧
    (undo s).activePageIndex = s.activePageIndex ∧
    (undo s).history = s.history ∧
    (undo s).historyIndex =
      (if s.historyIndex ≥ 0 then s.historyIndex - 1 else s.historyIndex) ∧
    (redo s).projects = s.projects ∧
    (redo s).assets = s.assets ∧
    (redo s).groups = s.groups ∧
    (redo s).activeProjectId = s.activeProjectId ∧
    (redo s).activePageIndex = s.activePageIndex ∧
    (redo s).history = s.history ∧
    (redo s).historyIndex =
      (if s.historyIndex < (s.history.length : Int) - 1 then s.historyIndex + 1
       else s.historyIndex) := by
  unfold undo redo
  by_cases h : s.historyIndex < 0
  · have h' : ¬ s.historyIndex ≥ 0 := by omega
    by_cases h2 : s.historyIndex ≥ (s.history.length : Int) - 1
    · have h2' : ¬ s.historyIndex < (s.history.length : Int) - 1 := by omega
      simp [h, h', h2, h2']
    · have h2' : s.historyIndex < (s.history.length : Int) - 1 := by omega
      simp [h, h', h2, h2']
  · have h' : s.historyIndex ≥ 0 := by omega
    by_cases h2 : s.historyIndex ≥ (s.history.length : Int) - 1
    · have h2' : ¬ s.historyIndex < (s.history.length : Int) - 1 := by omega
      simp [h, h', h2, h2']
    · have h2' : s.historyIndex < (s.history.length : Int) - 1 := by omega
      simp [h, h', h2, h2']

/-! ## C7 — updateProject on an absent id is a no-op -/

/-- **C7.** For every id not carried by any project in the store and every
partial update, `updateProject(id, updates)` returns the state unchanged:
no project is added, removed or modified (in particular no `updatedAt` of
any stored project changes, since no project matches), and no error is
raised (the function is total). -/
theorem updateProject_missing_id_noop (s : AppState) (id : String)
    (u : ProjectUpdates) (now : Nat) (h : ∀ p ∈ s.projects, p.id ≠ id) :
    updateProject s id u now = s := by
  have hmap : s.projects.map (projStep s id u now) =
      s.projects.map (fun p => (p, (none : Option Int))) :=
    List.map_congr_left fun p hp => by simp [projStep, h p hp]
  unfold updateProject
  rw [hmap]
  have h1 : (s.projects.map (fun p => (p, (none : Option Int)))).map Prod.fst
      = s.projects := by
    have : (Prod.fst ∘ fun p : CalendarProject => (p, (none : Option Int))) =
        fun p => p := rfl
    rw [List.map_map, this, List.map_id']
  have h2 : (s.projects.map (fun p => (p, (none : Option Int)))).foldl
      (fun acc pr => match pr.2 with | some v => v | none => acc)
      s.activePageIndex = s.activePageIndex := by
    rw [List.foldl_map]
    exact foldl_keep_acc s.projects s.activePageIndex
  simp only [h1, h2]

/-- Witness for C7 at a concrete input: no project carries id `"ghost"`. -/
theorem updateProject_missing_id_noop_witness :
    (∀ p ∈ sampleState2.projects, p.id ≠ "ghost") ∧
      updateProject sampleState2 "ghost" { title := some "t" } 5 = sampleState2 :=
  ⟨by decide, updateProject_missing_id_noop sampleState2 "ghost"
    { title := some "t" } 5 (by decide)⟩

/-! ## C10 — addImagesToGroup with an unknown group id -/

/-- **C10.** `addImagesToGroup(groupId, imageIds)` with a `groupId` matching
no stored group leaves the groups list unchanged, yet still appends
`groupId` to the `groupIds` of every asset whose id is in `imageIds` and
that did not already carry it — creating asset group references with no
corresponding group. -/
theorem addImagesToGroup_missing_group (s : AppState) (groupId : String)
    (imageIds : List String) (h : ∀ g ∈ s.groups, g.id ≠ groupId) :
    (addImagesToGroup s groupId imageIds).groups = s.groups ∧
    (addImagesToGroup s groupId imageIds).assets =
      s.assets.map (fun a =>
        if a.id ∈ imageIds ∧ groupId ∉ a.groupIds then
          { a with groupIds := a.groupIds ++ [groupId] }
        else a) := by
  constructor
  · show s.groups.map _ = s.groups
    have : s.groups.map (fun g =>
        if g.id = groupId then { g with imageIds := jsSetDedup (g.imageIds ++ imageIds) }
        else g) = s.groups.map (fun g => g) :=
      List.map_congr_left fun g hg => by simp [h g hg]
    rw [this, List.map_id']
  · rfl

/-- Witness for C10 at a concrete input: id `"ghost"` matches no group, and
the asset `"a1"` ends up referencing it. -/
theorem addImagesToGroup_missing_group_witness :
    (∀ g ∈ sampleLibraryState.groups, g.id ≠ "ghost") ∧
    (addImagesToGroup sampleLibraryState "ghost" ["a1"]).groups =
      sampleLibraryState.groups ∧
    (addImagesToGroup sampleLibraryState "ghost" ["a1"]).assets =
      sampleLibraryState.assets.map (fun a =>
        if a.id ∈ ["a1"] ∧ "ghost" ∉ a.groupIds then
          { a with groupIds := a.groupIds ++ ["ghost"] }
        else a) :=
  ⟨by decide,
    (addImagesToGroup_missing_group sampleLibraryState "ghost" ["a1"] (by decide)).1,
    (addImagesToGroup_missing_group sampleLibraryState "ghost" ["a1"] (by decide)).2⟩

/-! ## C4 — page generator output -/

/-- **C4.** For each `monthsPerPage ∈ {1,2}`, `createDefaultMonthPages`
produces the single cover page first, followed by 12 pages with
`month = 1..12` (when `monthsPerPage = 1`) or 6 pages with
`month = 1,3,5,7,9,11` (when `monthsPerPage = 2`), all non-cover pages with
`showGrid = true`; every produced page has `assignedImageId = null`, the
default image transform, the default grid style, and the default
`{10,10,10,10}` margins (`DEFAULT_COVER_MARGINS = DEFAULT_MONTH_MARGINS`). -/
theorem createDefaultMonthPages_output :
    (createDefaultMonthPages 1).map (fun pg => pg.month) =
      [MonthTag.cover, .num 1, .num 2, .num 3, .num 4, .num 5, .num 6,
       .num 7, .num 8, .num 9, .num 10, .num 11, .num 12] ∧
    (createDefaultMonthPages 2).map (fun pg => pg.month) =
      [MonthTag.cover, .num 1, .num 3, .num 5, .num 7, .num 9, .num 11] ∧
    (createDefaultMonthPages 1).head? = some coverPageDefault ∧
    (createDefaultMonthPages 2).head? = some coverPageDefault ∧
    ((createDefaultMonthPages 1).tail.all fun pg => pg.showGrid) = true ∧
    ((createDefaultMonthPages 2).tail.all fun pg => pg.showGrid) = true ∧
    ((createDefaultMonthPages 1).all fun pg =>
      pg.assignedImageId == none &&
      pg.imageTransform == DEFAULT_IMAGE_TRANSFORM &&
      pg.gridStyle == DEFAULT_GRID_STYLE &&
      pg.margins == some DEFAULT_MONTH_MARGINS) = true ∧
    ((createDefaultMonthPages 2).all fun pg =>
      pg.assignedImageId == none &&
      pg.imageTransform == DEFAULT_IMAGE_TRANSFORM &&
      pg.gridStyle == DEFAULT_GRID_STYLE &&
      pg.margins == some DEFAULT_MONTH_MARGINS) = true := by
  exact ⟨by decide, by decide, rfl, rfl, by decide, by decide, by decide, by decide⟩

/-! ## C6 — selectAssetRange semantics -/

/-- **C6.** `selectAssetRange(startId, endId, orderedIds?)` over the id
ordering (the supplied list, or all asset ids when none is supplied):
(1) if either id is absent from the ordering, the state is unchanged;
(2) if both are present at indices `i` and `j` (in either argument order),
the new selection holds exactly the union of the prior selection and the
inclusive slice between `min i j` and `max i j`, so no prior member is
removed; (3) in particular
`selectAssetRange("id3","id1",["id1","id2","id3","id4"])` from an empty
selection yields exactly `["id1","id2","id3"]`. -/
theorem selectAssetRange_spec :
    (∀ (s : AppState) (startId endId : String) (assetIds : Option (List String)),
      (startId ∉ assetIds.getD (s.assets.map fun a => a.id) ∨
       endId ∉ assetIds.getD (s.assets.map fun a => a.id)) →
      selectAssetRange s startId endId assetIds = s) ∧
    (∀ (s : AppState) (startId endId : String) (assetIds : Option (List String))
        (i j : Nat),
      (assetIds.getD (s.assets.map fun a => a.id)).findIdx? (fun x => x == startId) = some i →
      (assetIds.getD (s.assets.map fun a => a.id)).findIdx? (fun x => x == endId) = some j →
      ∀ x : String,
        x ∈ (selectAssetRange s startId endId assetIds).selectedAssetIds ↔
          (x ∈ s.selectedAssetIds ∨
           x ∈ ((assetIds.getD (s.assets.map fun a => a.id)).drop (min i j)).take
                 (max i j + 1 - min i j))) ∧
    (selectAssetRange initialState "id3" "id1"
        (some ["id1", "id2", "id3", "id4"])).selectedAssetIds =
      ["id1", "id2", "id3"] := by
  refine ⟨?_, ?_, by decide⟩
  · intro s startId endId assetIds habs
    rcases habs with h | h
    · have h1 : (assetIds.getD (s.assets.map fun a => a.id)).findIdx?
          (fun x => x == startId) = none := by
        rw [List.findIdx?_eq_none_iff]
        intro x hx
        simp only [beq_eq_false_iff_ne, ne_eq]
        rintro rfl; exact h hx
      simp only [selectAssetRange, h1]
    · have h1 : (assetIds.getD (s.assets.map fun a => a.id)).findIdx?
          (fun x => x == endId) = none := by
        rw [List.findIdx?_eq_none_iff]
        intro x hx
        simp only [beq_eq_false_iff_ne, ne_eq]
        rintro rfl; exact h hx
      rcases h2 : (assetIds.getD (s.assets.map fun a => a.id)).findIdx?
          (fun x => x == startId) with _ | k
      · simp only [selectAssetRange, h2]
      · simp only [selectAssetRange, h1, h2]
  · intro s startId endId assetIds i j hi hj x
    simp only [selectAssetRange, hi, hj, mem_jsSetDedup, List.mem_append]

/-- Witness for C6 at concrete inputs: an absent id is a no-op, and the
range scenario unions into the empty selection. -/
theorem selectAssetRange_spec_witness :
    selectAssetRange initialState "zz" "id1" (some ["id1", "id2"]) = initialState ∧
    ("id2" ∈ (selectAssetRange initialState "id3" "id1"
        (some ["id1", "id2", "id3", "id4"])).selectedAssetIds ↔
      ("id2" ∈ initialState.selectedAssetIds ∨
       "id2" ∈ ((["id1", "id2", "id3", "id4"].drop (min 2 0)).take (max 2 0 + 1 - min 2 0)))) :=
  ⟨selectAssetRange_spec.1 initialState "zz" "id1" (some ["id1", "id2"])
      (Or.inl (by decide)),
   selectAssetRange_spec.2.1 initialState "id3" "id1" (some ["id1", "id2", "id3", "id4"])
      2 0 (by decide) (by decide) "id2"⟩

/-! ## C8 — group uniqueness on load -/

theorem keepFirstByKey_sublist (key : ImageGroup → String) (seen : List String)
    (l : List ImageGroup) : (keepFirstByKey key seen l).Sublist l := by
  induction l generalizing seen with
  | nil => simp [keepFirstByKey]
  | cons g gs ih =>
    unfold keepFirstByKey
    split
    · exact (ih seen).cons g
    · exact (ih (key g :: seen)).cons₂ g

theorem mem_keepFirstByKey_not_seen (key : ImageGroup → String) (seen : List String)
    (l : List ImageGroup) (g : ImageGroup) (h : g ∈ keepFirstByKey key seen l) :
    key g ∉ seen := by
  induction l generalizing seen with
  | nil => simp [keepFirstByKey] at h
  | cons x xs ih =>
    unfold keepFirstByKey at h
    split at h
    · exact ih seen h
    · rcases List.mem_cons.mp h with rfl | hmem
      · assumption
      · exact fun hc => ih (key x :: seen) hmem (List.mem_cons_of_mem _ hc)

theorem keepFirstByKey_pairwise (key : ImageGroup → String) (seen : List String)
    (l : List ImageGroup) :
    (keepFirstByKey key seen l).Pairwise (fun a b => key a ≠ key b) := by
  induction l generalizing seen with
  | nil => simp [keepFirstByKey]
  | cons g gs ih =>
    unfold keepFirstByKey
    split
    · exact ih seen
    · refine List.Pairwise.cons ?_ (ih (key g :: seen))
      intro b hb heq
      exact mem_keepFirstByKey_not_seen key _ gs b hb (by simp [heq])

theorem find?_keepFirstByKey (key : ImageGroup → String) (seen : List String)
    (l : List ImageGroup) (g : ImageGroup) (h : g ∈ keepFirstByKey key seen l) :
    l.find? (fun x => key x == key g) = some g := by
  induction l generalizing seen with
  | nil => simp [keepFirstByKey] at h
  | cons x xs ih =>
    unfold keepFirstByKey at h
    split at h
    · rename_i hx
      have hne : key x ≠ key g := by
        intro hc
        exact mem_keepFirstByKey_not_seen key seen xs g h (hc ▸ hx)
      rw [List.find?_cons_of_neg _ (by simpa using hne)]
      exact ih seen h
    · rename_i hx
      rcases List.mem_cons.mp h with rfl | hmem
      · rw [List.find?_cons_of_pos _ (by simp)]
      · have hne : key x ≠ key g := by
          intro hc
          exact mem_keepFirstByKey_not_seen key _ xs g hmem (by simp [hc])
        rw [List.find?_cons_of_neg _ (by simpa using hne)]
        exact ih (key x :: seen) hmem

/-- **C8.** After `loadSnapshot(snapshot)` no two stored groups share an id
and no two share a name; each kept group is the first occurrence of its id
in the snapshot's group list, and the first occurrence of its name among
the id-deduplicated groups (first occurrences win). -/
theorem loadSnapshot_group_uniqueness (s : AppState) (snapshot : AppStateSnapshot) :
    ((loadSnapshot s snapshot).groups.Pairwise fun a b => a.id ≠ b.id) ∧
    ((loadSnapshot s snapshot).groups.Pairwise fun a b => a.name ≠ b.name) ∧
    (∀ g ∈ (loadSnapshot s snapshot).groups,
      snapshot.groups.find? (fun x => x.id == g.id) = some g ∧
      (keepFirstByKey (fun x => x.id) [] snapshot.groups).find?
        (fun x => x.name == g.name) = some g) := by
  have hgroups : (loadSnapshot s snapshot).groups =
      keepFirstByKey (fun x => x.name) []
        (keepFirstByKey (fun x => x.id) [] snapshot.groups) := rfl
  refine ⟨?_, ?_, ?_⟩
  · rw [hgroups]
    exact List.Pairwise.sublist (keepFirstByKey_sublist _ [] _)
      (keepFirstByKey_pairwise (fun x => x.id) [] snapshot.groups)
  · rw [hgroups]
    exact keepFirstByKey_pairwise (fun x => x.name) [] _
  · intro g hg
    rw [hgroups] at hg
    refine ⟨?_, find?_keepFirstByKey _ [] _ g hg⟩
    have hmem : g ∈ keepFirstByKey (fun x => x.id) [] snapshot.groups :=
      (keepFirstByKey_sublist (fun x => x.name) [] _).subset hg
    exact find?_keepFirstByKey _ [] _ g hmem

/-- Witness for C8 at a concrete snapshot with an id duplicate and a name
duplicate. -/
theorem loadSnapshot_group_uniqueness_witness :
    ((loadSnapshot initialState
      { version := 1, projects := [], assets := [],
        groups := [{ id := "a", name := "X", createdAt := 0, imageIds := [] },
                   { id := "a", name := "Y", createdAt := 1, imageIds := [] },
                   { id := "b", name := "Y", createdAt := 2, imageIds := [] },
                   { id := "c", name := "Z", createdAt := 3, imageIds := [] }],
        activeProjectId := none, activePageIndex := 0,
        lastUpdated := 0 }).groups.Pairwise fun a b => a.id ≠ b.id) ∧
    ((loadSnapshot initialState
      { version := 1, projects := [], assets := [],
        groups := [{ id := "a", name := "X", createdAt := 0, imageIds := [] },
                   { id := "a", name := "Y", createdAt := 1, imageIds := [] },
                   { id := "b", name := "Y", createdAt := 2, imageIds := [] },
                   { id := "c", name := "Z", createdAt := 3, imageIds := [] }],
        activeProjectId := none, activePageIndex := 0,
        lastUpdated := 0 }).groups.map fun g => g.id) = ["a", "b", "c"] :=
  ⟨(loadSnapshot_group_uniqueness initialState
      { version := 1, projects := [], assets := [],
        groups := [{ id := "a", name := "X", createdAt := 0, imageIds := [] },
                   { id := "a", name := "Y", createdAt := 1, imageIds := [] },
                   { id := "b", name := "Y", createdAt := 2, imageIds := [] },
                   { id := "c", name := "Z", createdAt := 3, imageIds := [] }],
        activeProjectId := none, activePageIndex := 0, lastUpdated := 0 }).1,
   by decide⟩

/-! ## C3 — group/asset symmetry invariant -/

/-- The group/asset symmetry relation: every stored asset and every stored
group agree on whether they are related. -/
def SymmetricGA (s : AppState) : Prop :=
  ∀ a ∈ s.assets, ∀ g ∈ s.groups, (g.id ∈ a.groupIds ↔ a.id ∈ g.imageIds)

/-- The four mutations quantified over by the symmetry invariant, with
arbitrary (existing or not) arguments. -/
inductive GAOp where
  | addImages (groupId : String) (imageIds : List String) : GAOp
  | removeImages (groupId : String) (imageIds : List String) : GAOp
  | delAsset (id : String) (now : Nat) : GAOp
  | delGroup (id : String) : GAOp

/-- Interpretation of a `GAOp` on the store. -/
def applyGAOp (s : AppState) : GAOp → AppState
  | .addImages groupId imageIds => addImagesToGroup s groupId imageIds
  | .removeImages groupId imageIds => removeImagesFromGroup s groupId imageIds
  | .delAsset id now => deleteAsset s id now
  | .delGroup id => deleteGroup s id

theorem symmetricGA_congr (s t : AppState) (ha : t.assets = s.assets)
    (hg : t.groups = s.groups) (h : SymmetricGA s) : SymmetricGA t := by
  intro a haa g hgg
  rw [ha] at haa
  rw [hg] at hgg
  exact h a haa g hgg

theorem sym_addImagesToGroup (s : AppState) (gid : String) (ids : List String)
    (h : SymmetricGA s) : SymmetricGA (addImagesToGroup s gid ids) := by
  intro a' ha' g' hg'
  simp only [addImagesToGroup] at ha' hg'
  obtain ⟨a, ha, rfl⟩ := List.mem_map.mp ha'
  obtain ⟨g, hg, rfl⟩ := List.mem_map.mp hg'
  have hbase := h a ha g hg
  by_cases hga : g.id = gid
  · by_cases hac : a.id ∈ ids ∧ gid ∉ a.groupIds
    · rw [if_pos hga, if_pos hac]
      show g.id ∈ a.groupIds ++ [gid] ↔ a.id ∈ jsSetDedup (g.imageIds ++ ids)
      simp only [mem_jsSetDedup, List.mem_append, List.mem_singleton]
      exact iff_of_true (Or.inr hga) (Or.inr hac.1)
    · rw [if_pos hga, if_neg hac]
      show g.id ∈ a.groupIds ↔ a.id ∈ jsSetDedup (g.imageIds ++ ids)
      simp only [mem_jsSetDedup, List.mem_append]
      rw [not_and_or, not_not] at hac
      constructor
      · intro hin
        exact Or.inl (hbase.mp hin)
      · rintro (him | hid)
        · exact hbase.mpr him
        · rcases hac with hno | hyes
          · exact absurd hid hno
          · rw [hga]; exact hyes
  · by_cases hac : a.id ∈ ids ∧ gid ∉ a.groupIds
    · rw [if_neg hga, if_pos hac]
      show g.id ∈ a.groupIds ++ [gid] ↔ a.id ∈ g.imageIds
      simp only [List.mem_append, List.mem_singleton]
      constructor
      · rintro (hin | heq)
        · exact hbase.mp hin
        · exact absurd heq hga
      · intro him
        exact Or.inl (hbase.mpr him)
    · rw [if_neg hga, if_neg hac]
      exact hbase

theorem sym_removeImagesFromGroup (s : AppState) (gid : String) (ids : List String)
    (h : SymmetricGA s) : SymmetricGA (removeImagesFromGroup s gid ids) := by
  intro a' ha' g' hg'
  simp only [removeImagesFromGroup] at ha' hg'
  obtain ⟨a, ha, rfl⟩ := List.mem_map.mp ha'
  obtain ⟨g, hg, rfl⟩ := List.mem_map.mp hg'
  have hbase := h a ha g hg
  by_cases hga : g.id = gid
  · by_cases hac : a.id ∈ ids
    · rw [if_pos hga, if_pos hac]
      show g.id ∈ a.groupIds.filter (fun x => x ≠ gid) ↔
        a.id ∈ g.imageIds.filter (fun x => x ∉ ids)
      simp only [List.mem_filter, decide_eq_true_eq]
      constructor
      · rintro ⟨_, hne⟩
        exact absurd hga hne
      · rintro ⟨_, hno⟩
        exact absurd hac hno
    · rw [if_pos hga, if_neg hac]
      show g.id ∈ a.groupIds ↔ a.id ∈ g.imageIds.filter (fun x => x ∉ ids)
      simp only [List.mem_filter, decide_eq_true_eq]
      constructor
      · intro hin
        exact ⟨hbase.mp hin, hac⟩
      · rintro ⟨him, _⟩
        exact hbase.mpr him
  · by_cases hac : a.id ∈ ids
    · rw [if_neg hga, if_pos hac]
      show g.id ∈ a.groupIds.filter (fun x => x ≠ gid) ↔ a.id ∈ g.imageIds
      simp only [List.mem_filter, decide_eq_true_eq]
      constructor
      · rintro ⟨hin, _⟩
        exact hbase.mp hin
      · intro him
        exact ⟨hbase.mpr him, hga⟩
    · rw [if_neg hga, if_neg hac]
      exact hbase

theorem sym_deleteGroup (s : AppState) (id : String) (h : SymmetricGA s) :
    SymmetricGA (deleteGroup s id) := by
  intro a' ha' g' hg'
  simp only [deleteGroup] at ha' hg'
  obtain ⟨a, ha, rfl⟩ := List.mem_map.mp ha'
  have hgmem := (List.mem_filter.mp hg').1
  have hgne : g'.id ≠ id := by
    have := (List.mem_filter.mp hg').2
    simpa using this
  have hbase := h a ha g' hgmem
  simp only [List.mem_filter, decide_eq_true_eq]
  tauto

theorem sym_deleteAssetGroups (s : AppState) (id : String) (h : SymmetricGA s) :
    SymmetricGA (deleteAssetGroups s id) := by
  unfold deleteAssetGroups
  split
  · rename_i asset heq
    clear heq
    induction asset.groupIds generalizing s with
    | nil => exact h
    | cons gid rest ih => exact ih _ (sym_removeImagesFromGroup s gid [id] h)
  · exact h

theorem deleteAssetPages_assets_groups (id : String) (now : Nat)
    (l : List CalendarProject) (st : AppState) :
    (l.foldl
      (fun st project =>
        let updatedMonths := project.months.map fun page =>
          if page.assignedImageId = some id then { page with assignedImageId := none }
          else page
        if project.months.any (fun page => page.assignedImageId == some id) then
          updateProject st project.id { months := some updatedMonths } now
        else st)
      st).assets = st.assets ∧
    (l.foldl
      (fun st project =>
        let updatedMonths := project.months.map fun page =>
          if page.assignedImageId = some id then { page with assignedImageId := none }
          else page
        if project.months.any (fun page => page.assignedImageId == some id) then
          updateProject st project.id { months := some updatedMonths } now
        else st)
      st).groups = st.groups := by
  induction l generalizing st with
  | nil => exact ⟨rfl, rfl⟩
  | cons p rest ih =>
    simp only [List.foldl_cons]
    constructor
    · rw [(ih _).1]
      split
      · exact (updateProject_frame st p.id _ now).1
      · rfl
    · rw [(ih _).2]
      split
      · exact (updateProject_frame st p.id _ now).2.1
      · rfl

theorem sym_deleteAsset (s : AppState) (id : String) (now : Nat)
    (h : SymmetricGA s) : SymmetricGA (deleteAsset s id now) := by
  have h1 : SymmetricGA (deleteAssetGroups s id) := sym_deleteAssetGroups s id h
  have h2 : SymmetricGA (deleteAssetPages (deleteAssetGroups s id) id now) :=
    symmetricGA_congr _ _
      (deleteAssetPages_assets_groups id now (deleteAssetGroups s id).projects _).1
      (deleteAssetPages_assets_groups id now (deleteAssetGroups s id).projects _).2 h1
  intro a' ha' g' hg'
  exact h2 a' (List.mem_filter.mp ha').1 g' hg'

/-- **C3.** Starting from any state in which every asset/group pair agrees on
the relation (the asset lists the group id iff the group lists the asset
id), the biconditional still holds for all stored assets and groups after
any sequence of `addImagesToGroup`, `removeImagesFromGroup`, `deleteAsset`
and `deleteGroup` calls with arbitrary arguments, existing or not. -/
theorem group_asset_symmetry_preserved (s : AppState) (h : SymmetricGA s)
    (ops : List GAOp) : SymmetricGA (ops.foldl applyGAOp s) := by
  induction ops generalizing s with
  | nil => exact h
  | cons op rest ih =>
    refine ih (applyGAOp s op) ?_
    cases op with
    | addImages gid ids => exact sym_addImagesToGroup s gid ids h
    | removeImages gid ids => exact sym_removeImagesFromGroup s gid ids h
    | delAsset i now => exact sym_deleteAsset s i now h
    | delGroup i => exact sym_deleteGroup s i h

/-- Witness for C3 at a concrete input: a symmetric one-asset/one-group
library stays symmetric across a mixed op sequence. -/
theorem group_asset_symmetry_preserved_witness :
    SymmetricGA sampleLibraryState ∧
    SymmetricGA ([GAOp.addImages "g1" ["a1", "zz"], GAOp.removeImages "ghost" ["a1"],
        GAOp.delAsset "a1" 3, GAOp.delGroup "g1"].foldl applyGAOp sampleLibraryState) :=
  ⟨by unfold SymmetricGA; decide,
   group_asset_symmetry_preserved sampleLibraryState (by unfold SymmetricGA; decide)
     [GAOp.addImages "g1" ["a1", "zz"], GAOp.removeImages "ghost" ["a1"],
      GAOp.delAsset "a1" 3, GAOp.delGroup "g1"]⟩

/-! ## C1 — page-count invariant under updateProject -/

/-- The page-count invariant of the spec:
`months.length == (monthsPerPage==1 ? 13 : 7)` for every stored project
(with JS semantics `undefined === 1` being false). -/
def PageCountInv (s : AppState) : Prop :=
  ∀ p ∈ s.projects, p.months.length = expectedCountFor p.monthsPerPage

theorem length_createDefaultMonthPages (m : Nat) :
    (createDefaultMonthPages m).length = if m = 1 then 13 else 7 := by
  unfold createDefaultMonthPages
  by_cases h : m = 1 <;> simp [h]

theorem length_reconcilePages (old new : List MonthPage) :
    (reconcilePages old new).length = new.length := by
  unfold reconcilePages
  rw [List.length_map, List.enum_length]

/-- **C1 (counterexample).** The claimed invariant fails on the code: from a
valid store (`monthsPerPage = 2`, 7 pages), a single `updateProject` that
supplies a `months` array of the wrong length without changing
`monthsPerPage` commits that array unchanged — the regeneration trigger
compares the *old* page count, which still matches. -/
theorem pageCount_invariant_cex :
    PageCountInv sampleState2 ∧
    ¬ PageCountInv (updateProject sampleState2 "p1" { months := some [] } 1) := by
  constructor
  · unfold PageCountInv
    decide
  · unfold PageCountInv
    decide

/-- An update is safe for project `p` when it supplies no `months` array, or
changes `monthsPerPage` (forcing regeneration), or supplies an array whose
length matches the expected count for the effective `monthsPerPage`. -/
def SafeFor (p : CalendarProject) (u : ProjectUpdates) : Prop :=
  u.months = none ∨ changedMpp p u = true ∨
    ∀ ms, u.months = some ms → ms.length = expectedCountFor (effectiveMpp p u)

/-- A call `updateProject id u` is safe in state `s` when `u` is safe for
every stored project carrying `id`. -/
def StepOk (s : AppState) (id : String) (u : ProjectUpdates) : Prop :=
  ∀ p ∈ s.projects, p.id = id → SafeFor p u

/-- Reachability by a sequence of safe `updateProject` calls. -/
inductive SafeCalls : AppState → AppState → Prop
  | refl (s : AppState) : SafeCalls s s
  | step (s t : AppState) (id : String) (u : ProjectUpdates) (now : Nat) :
      SafeCalls s t → StepOk t id u → SafeCalls s (updateProject t id u now)

/-- A `projStep` on the targeted project restores the page-count relation on
its own, for any safe update, regardless of the prior page count. -/
theorem projStep_invariant_touched (st : AppState) (id : String) (u : ProjectUpdates)
    (now : Nat) (p : CalendarProject) (hid : p.id = id) (hsafe : SafeFor p u) :
    ((projStep st id u now p).1).months.length =
      expectedCountFor ((projStep st id u now p).1).monthsPerPage := by
  simp only [projStep]
  rw [if_pos hid]
  by_cases hreg : changedMpp p u = true ∨
      p.months.length ≠ expectedCountFor (effectiveMpp p u)
  · rw [if_pos hreg]
    show (reconcilePages p.months
        (createDefaultMonthPages ((effectiveMpp p u).getD 2))).length =
      expectedCountFor (effectiveMpp p u)
    rw [length_reconcilePages, length_createDefaultMonthPages]
    rcases heff : effectiveMpp p u with _ | m
    · simp [expectedCountFor]
    · by_cases hm : m = 1 <;> simp [expectedCountFor, hm]
  · rw [if_neg hreg]
    push_neg at hreg
    show (u.months.getD p.months).length = expectedCountFor (effectiveMpp p u)
    cases hms : u.months with
    | none =>
      exact hreg.2
    | some ms =>
      rcases hsafe with h0 | h1 | h2
      · rw [hms] at h0
        cases h0
      · exact absurd h1 hreg.1
      · exact h2 ms hms

theorem projStep_invariant (st : AppState) (id : String) (u : ProjectUpdates)
    (now : Nat) (p : CalendarProject) (hsafe : p.id = id → SafeFor p u)
    (hp : p.months.length = expectedCountFor p.monthsPerPage) :
    ((projStep st id u now p).1).months.length =
      expectedCountFor ((projStep st id u now p).1).monthsPerPage := by
  by_cases hid : p.id = id
  · exact projStep_invariant_touched st id u now p hid (hsafe hid)
  · simp only [projStep]
    rw [if_neg hid]
    exact hp

/-- **C1 (amended).** The page-count invariant holds for every stored project
after any sequence of `updateProject` calls in which every update that
supplies a `months` array either also changes `monthsPerPage` or supplies
an array of the expected length for the effective `monthsPerPage`; an
update supplying a wrong-length `months` array without changing
`monthsPerPage` (the counterexample) is the only exception the code
permits. -/
theorem pageCount_invariant_updateProject (s t : AppState) (hinv : PageCountInv s)
    (hsafe : SafeCalls s t) : PageCountInv t := by
  induction hsafe with
  | refl => exact hinv
  | step t0 id u now hcalls hok ih =>
    intro p' hp'
    have hmap : (updateProject t0 id u now).projects =
        t0.projects.map (fun p => (projStep t0 id u now p).1) := by
      simp [updateProject, List.map_map]
    rw [hmap] at hp'
    obtain ⟨p, hp, rfl⟩ := List.mem_map.mp hp'
    exact projStep_invariant t0 id u now p (fun hid => hok p hp hid) (ih p hp)

/-- Witness for the amended C1: one safe call (an explicit `monthsPerPage`
change) from a valid store keeps the invariant. -/
theorem pageCount_invariant_updateProject_witness :
    PageCountInv sampleState2 ∧
    PageCountInv (updateProject sampleState2 "p1" { monthsPerPage := some 1 } 3) :=
  ⟨by unfold PageCountInv; decide,
   pageCount_invariant_updateProject sampleState2 _ (by unfold PageCountInv; decide)
     (SafeCalls.step sampleState2 sampleState2 "p1" { monthsPerPage := some 1 } 3
       (SafeCalls.refl sampleState2) (fun p _ _ => Or.inl rfl))⟩

/-! ## C2 — reconciliation round-trip preserves compatible assignments -/

theorem coverSlot_month (l : List MonthPage) (c : MonthPage) (hc : c.month = .cover) :
    (coverSlot l c).month = .cover := by
  unfold coverSlot
  split
  · rename_i pg hpg
    simpa using List.find?_some hpg
  · exact hc

theorem monthSlot_month (l : List MonthPage) (m : Nat) :
    (monthSlot l (monthPageDefault m)).month = .num m := by
  show (match l.find? (fun pg : MonthPage => pg.month == MonthTag.num m) with
        | some existingPage => existingPage
        | none => monthPageDefault m).month = .num m
  split
  · rename_i pg hpg
    simpa using List.find?_some hpg
  · rfl

theorem monthSlot_of_find? (l : List MonthPage) (m : Nat) (pg : MonthPage)
    (h : l.find? (fun x => x.month == MonthTag.num m) = some pg) :
    monthSlot l (monthPageDefault m) = pg := by
  show (match l.find? (fun x : MonthPage => x.month == MonthTag.num m) with
        | some existingPage => existingPage
        | none => monthPageDefault m) = pg
  rw [h]

theorem find5_neg_cover (l : List MonthPage) :
    ¬ (((coverSlot l coverPageDefault).month == MonthTag.num 5) = true) := by
  rw [coverSlot_month l coverPageDefault rfl]
  decide

theorem find5_neg_month (l : List MonthPage) (m : Nat) (hm : m ≠ 5) :
    ¬ (((monthSlot l (monthPageDefault m)).month == MonthTag.num 5) = true) := by
  rw [monthSlot_month l m]
  simpa using hm

theorem reconcile_gen2_find5 (old : List MonthPage) (pg : MonthPage)
    (h : old.find? (fun x => x.month == MonthTag.num 5) = some pg) :
    (reconcilePages old (createDefaultMonthPages 2)).find?
      (fun x => x.month == MonthTag.num 5) = some pg := by
  have hexp : reconcilePages old (createDefaultMonthPages 2) =
      [coverSlot old coverPageDefault,
       monthSlot old (monthPageDefault 1), monthSlot old (monthPageDefault 3),
       monthSlot old (monthPageDefault 5), monthSlot old (monthPageDefault 7),
       monthSlot old (monthPageDefault 9), monthSlot old (monthPageDefault 11)] := rfl
  rw [hexp,
    @List.find?_cons_of_neg MonthPage (fun x => x.month == MonthTag.num 5) _ _ (find5_neg_cover old),
    @List.find?_cons_of_neg MonthPage (fun x => x.month == MonthTag.num 5) _ _ (find5_neg_month old 1 (by decide)),
    @List.find?_cons_of_neg MonthPage (fun x => x.month == MonthTag.num 5) _ _ (find5_neg_month old 3 (by decide)),
    monthSlot_of_find? old 5 pg h,
    @List.find?_cons_of_pos MonthPage (fun x => x.month == MonthTag.num 5) _ _ (by simpa using List.find?_some h)]

theorem reconcile_gen1_find5 (old : List MonthPage) (pg : MonthPage)
    (h : old.find? (fun x => x.month == MonthTag.num 5) = some pg) :
    (reconcilePages old (createDefaultMonthPages 1)).find?
      (fun x => x.month == MonthTag.num 5) = some pg := by
  have hexp : reconcilePages old (createDefaultMonthPages 1) =
      [coverSlot old coverPageDefault,
       monthSlot old (monthPageDefault 1), monthSlot old (monthPageDefault 2),
       monthSlot old (monthPageDefault 3), monthSlot old (monthPageDefault 4),
       monthSlot old (monthPageDefault 5), monthSlot old (monthPageDefault 6),
       monthSlot old (monthPageDefault 7), monthSlot old (monthPageDefault 8),
       monthSlot old (monthPageDefault 9), monthSlot old (monthPageDefault 10),
       monthSlot old (monthPageDefault 11), monthSlot old (monthPageDefault 12)] := rfl
  rw [hexp,
    @List.find?_cons_of_neg MonthPage (fun x => x.month == MonthTag.num 5) _ _ (find5_neg_cover old),
    @List.find?_cons_of_neg MonthPage (fun x => x.month == MonthTag.num 5) _ _ (find5_neg_month old 1 (by decide)),
    @List.find?_cons_of_neg MonthPage (fun x => x.month == MonthTag.num 5) _ _ (find5_neg_month old 2 (by decide)),
    @List.find?_cons_of_neg MonthPage (fun x => x.month == MonthTag.num 5) _ _ (find5_neg_month old 3 (by decide)),
    @List.find?_cons_of_neg MonthPage (fun x => x.month == MonthTag.num 5) _ _ (find5_neg_month old 4 (by decide)),
    monthSlot_of_find? old 5 pg h,
    @List.find?_cons_of_pos MonthPage (fun x => x.month == MonthTag.num 5) _ _ (by simpa using List.find?_some h)]

theorem projStep_regen (st : AppState) (pid : String) (u : ProjectUpdates)
    (now : Nat) (p : CalendarProject) (hid : p.id = pid)
    (hch : changedMpp p u = true) :
    (projStep st pid u now p).1 =
      { applyUpdates p u now with
        months := reconcilePages p.months
          (createDefaultMonthPages ((effectiveMpp p u).getD 2)) } := by
  simp only [projStep]
  rw [if_pos hid, if_pos (Or.inl hch)]

/-- **C2.** Round-trip reconciliation preserves compatible assignments: for a
stored project with `monthsPerPage = 1` whose (first) month-5 page carries
`assignedImageId = X`, calling `updateProject` with `{monthsPerPage: 2}` and
then `{monthsPerPage: 1}` yields a project whose month-5 page again carries
`assignedImageId = X` (indeed the same page object is preserved through both
reconciliations). -/
theorem reconcile_roundtrip_preserves_assignment (s : AppState) (pid X : String)
    (p : CalendarProject) (pg : MonthPage) (n1 n2 : Nat)
    (hfind : s.projects.find? (fun q => q.id == pid) = some p)
    (hmpp : p.monthsPerPage = some 1)
    (h5 : p.months.find? (fun x => x.month == MonthTag.num 5) = some pg)
    (hX : pg.assignedImageId = some X) :
    ∃ q pg2,
      (updateProject (updateProject s pid { monthsPerPage := some 2 } n1) pid
          { monthsPerPage := some 1 } n2).projects.find?
        (fun q => q.id == pid) = some q ∧
      q.months.find? (fun x => x.month == MonthTag.num 5) = some pg2 ∧
      pg2.assignedImageId = some X := by
  have hid : p.id = pid := by simpa using List.find?_some hfind
  have hch2 : changedMpp p { monthsPerPage := some 2 } = true := by
    simp [changedMpp, hmpp]
  have hq1 : (updateProject s pid { monthsPerPage := some 2 } n1).projects.find?
      (fun q => q.id == pid) =
      some ((projStep s pid { monthsPerPage := some 2 } n1 p).1) := by
    rw [find?_updateProject s pid { monthsPerPage := some 2 } n1 pid rfl, hfind]
    rfl
  have hq1eq := projStep_regen s pid { monthsPerPage := some 2 } n1 p hid hch2
  have hq1months : ((projStep s pid { monthsPerPage := some 2 } n1 p).1).months =
      reconcilePages p.months (createDefaultMonthPages 2) := by
    rw [hq1eq]
    rfl
  have hq1mpp : ((projStep s pid { monthsPerPage := some 2 } n1 p).1).monthsPerPage =
      some 2 := by
    rw [hq1eq]
    rfl
  have hq1id : ((projStep s pid { monthsPerPage := some 2 } n1 p).1).id = pid :=
    (projStep_id s pid { monthsPerPage := some 2 } n1 p rfl).trans hid
  have hq1find5 : ((projStep s pid { monthsPerPage := some 2 } n1 p).1).months.find?
      (fun x => x.month == MonthTag.num 5) = some pg := by
    rw [hq1months]
    exact reconcile_gen2_find5 p.months pg h5
  have hch1 : changedMpp ((projStep s pid { monthsPerPage := some 2 } n1 p).1)
      { monthsPerPage := some 1 } = true := by
    simp [changedMpp, hq1mpp]
  have hq2 : (updateProject (updateProject s pid { monthsPerPage := some 2 } n1) pid
      { monthsPerPage := some 1 } n2).projects.find? (fun q => q.id == pid) =
      some ((projStep (updateProject s pid { monthsPerPage := some 2 } n1) pid
        { monthsPerPage := some 1 } n2
        ((projStep s pid { monthsPerPage := some 2 } n1 p).1)).1) := by
    rw [find?_updateProject _ pid { monthsPerPage := some 1 } n2 pid rfl, hq1]
    rfl
  have hq2eq := projStep_regen (updateProject s pid { monthsPerPage := some 2 } n1)
    pid { monthsPerPage := some 1 } n2
    ((projStep s pid { monthsPerPage := some 2 } n1 p).1) hq1id hch1
  refine ⟨_, pg, hq2, ?_, hX⟩
  rw [hq2eq]
  exact reconcile_gen1_find5 _ pg hq1find5

/-- Witness for C2 at a concrete input: `sampleProject1` has month 5 assigned
image `"X"`, and the 1 → 2 → 1 round trip restores it. -/
theorem reconcile_roundtrip_preserves_assignment_witness :
    (sampleState1.projects.find? (fun q => q.id == "p1") = some sampleProject1 ∧
     sampleProject1.monthsPerPage = some 1 ∧
     sampleProject1.months.find? (fun x => x.month == MonthTag.num 5) =
       some { monthPageDefault 5 with assignedImageId := some "X" }) ∧
    ∃ q pg2,
      (updateProject (updateProject sampleState1 "p1" { monthsPerPage := some 2 } 1)
          "p1" { monthsPerPage := some 1 } 2).projects.find?
        (fun q => q.id == "p1") = some q ∧
      q.months.find? (fun x => x.month == MonthTag.num 5) = some pg2 ∧
      pg2.assignedImageId = some "X" :=
  ⟨⟨rfl, rfl, rfl⟩,
   reconcile_roundtrip_preserves_assignment sampleState1 "p1" "X" sampleProject1
     { monthPageDefault 5 with assignedImageId := some "X" } 1 2 rfl rfl rfl rfl⟩

/-! ## C5 — assignImageToPage resets the transform -/

theorem expectedCountFor_some (mpp : Nat) :
    expectedCountFor (some mpp) = if mpp = 1 then 13 else 7 := by
  by_cases h : mpp = 1 <;> simp [expectedCountFor, h]

theorem projStep_noregen (st : AppState) (id : String) (u : ProjectUpdates)
    (now : Nat) (p : CalendarProject) (hid : p.id = id)
    (hch : changedMpp p u = false)
    (hlen : p.months.length = expectedCountFor (effectiveMpp p u)) :
    (projStep st id u now p).1 = applyUpdates p u now := by
  simp only [projStep]
  rw [if_pos hid, if_neg ?hcond]
  case hcond =>
    rintro (h | h)
    · rw [hch] at h
      cases h
    · exact h hlen

/-- Characterization of a successful `getActiveProject()`: it returns a
project whose id is the active id, and leaves the store holding, under that
id, a project which satisfies the page-count relation (either it already did,
or the getter healed it by regenerating). -/
theorem getActiveProjectM_spec (s : AppState) (now : Nat) (proj : CalendarProject)
    (s1 : AppState) (h : getActiveProjectM s now = (some proj, s1)) :
    ∃ aid q,
      s.activeProjectId = some aid ∧
      proj.id = aid ∧
      s1.projects.find? (fun x => x.id == aid) = some q ∧
      q.id = aid ∧
      q.months.length = expectedCountFor q.monthsPerPage := by
  unfold getActiveProjectM at h
  rcases ha : s.activeProjectId with _ | aid
  · rw [ha] at h
    dsimp only at h
    simp at h
  rw [ha] at h
  dsimp only at h
  rcases hf : s.projects.find? (fun p => p.id == aid) with _ | p
  · rw [hf] at h
    dsimp only at h
    simp at h
  rw [hf] at h
  dsimp only at h
  have hpid : p.id = aid := by simpa using List.find?_some hf
  rcases hm : p.monthsPerPage with _ | mpp
  · rw [hm] at h
    dsimp only at h
    simp only [Prod.mk.injEq, Option.some.injEq] at h
    obtain ⟨hproj, hs1⟩ := h
    subst hproj
    subst hs1
    refine ⟨aid, (projStep s p.id { monthsPerPage := some 1 } now p).1, rfl, hpid, ?_, ?_, ?_⟩
    · rw [find?_updateProject s p.id { monthsPerPage := some 1 } now aid rfl, hf]
      rfl
    · exact (projStep_id s p.id { monthsPerPage := some 1 } now p rfl).trans hpid
    · exact projStep_invariant_touched s p.id { monthsPerPage := some 1 } now p rfl
        (Or.inl rfl)
  · rw [hm] at h
    dsimp only at h
    by_cases hlen : p.months.length ≠ (if mpp = 1 then 13 else 7)
    · rw [if_pos hlen] at h
      have hf1 : (updateProject s p.id { monthsPerPage := some mpp } now).projects.find?
          (fun x => x.id == aid) =
          some ((projStep s p.id { monthsPerPage := some mpp } now p).1) := by
        rw [find?_updateProject s p.id { monthsPerPage := some mpp } now aid rfl, hf]
        rfl
      rw [hf1] at h
      dsimp only at h
      simp only [Prod.mk.injEq, Option.some.injEq] at h
      obtain ⟨hproj, hs1⟩ := h
      subst hproj
      subst hs1
      refine ⟨aid, (projStep s p.id { monthsPerPage := some mpp } now p).1, rfl, ?_, hf1,
        ?_, ?_⟩
      · exact (projStep_id s p.id { monthsPerPage := some mpp } now p rfl).trans hpid
      · exact (projStep_id s p.id { monthsPerPage := some mpp } now p rfl).trans hpid
      · exact projStep_invariant_touched s p.id { monthsPerPage := some mpp } now p rfl
          (Or.inl rfl)
    · rw [if_neg hlen] at h
      push_neg at hlen
      simp only [Prod.mk.injEq, Option.some.injEq] at h
      obtain ⟨hproj, hs1⟩ := h
      subst hproj
      subst hs1
      refine ⟨aid, p, rfl, hpid, hf, hpid, ?_⟩
      rw [hm, expectedCountFor_some]
      exact hlen

/-- **C5.** For every state whose active project resolves (via the engine's
own `getActiveProject`, which heals a missing `monthsPerPage` or a
mismatched page count) to a project with an existing page at index `i`,
`assignImageToPage(i, imgId)` leaves the stored project with
`months[i].assignedImageId = imgId` and `months[i].imageTransform =
DEFAULT_IMAGE_TRANSFORM`, regardless of the page's prior transform. -/
theorem assignImageToPage_resets_transform (s : AppState) (proj : CalendarProject)
    (s1 : AppState) (i : Nat) (img : Option String) (now : Nat) (page : MonthPage)
    (hgam : getActiveProjectM s now = (some proj, s1))
    (hpage : jsIndex proj.months (i : Int) = some page) :
    ∃ q pg,
      (assignImageToPage s (i : Int) img now).projects.find?
        (fun x => x.id == proj.id) = some q ∧
      q.months[i]? = some pg ∧
      pg.assignedImageId = img ∧
      pg.imageTransform = DEFAULT_IMAGE_TRANSFORM := by
  obtain ⟨aid, q, ha, hprojid, hqfind, hqid, hqinv⟩ :=
    getActiveProjectM_spec s now proj s1 hgam
  have hpage' : proj.months[i]? = some page := by
    unfold jsIndex at hpage
    rwa [if_neg (by omega), Int.toNat_natCast] at hpage
  have hibound : i < proj.months.length := (List.getElem?_eq_some.mp hpage').1
  have hassign : assignImageToPage s (i : Int) img now =
      updateProject
        (pushHistory s1 .assign (.assign page.assignedImageId)
          (.assign img) (some (i : Int)) now)
        proj.id
        { months := some (proj.months.set i
            { page with
              assignedImageId := img,
              imageTransform := DEFAULT_IMAGE_TRANSFORM }) }
        now := by
    simp only [assignImageToPage, hgam, hpage, Int.toNat_natCast]
  have hs2proj : (pushHistory s1 .assign (.assign page.assignedImageId)
      (.assign img) (some (i : Int)) now).projects = s1.projects :=
    (pushHistory_frame s1 .assign _ _ _ now).1
  have hqid' : q.id = proj.id := hqid.trans hprojid.symm
  have hfindq : (updateProject
      (pushHistory s1 .assign (.assign page.assignedImageId)
        (.assign img) (some (i : Int)) now)
      proj.id
      { months := some (proj.months.set i
          { page with
            assignedImageId := img,
            imageTransform := DEFAULT_IMAGE_TRANSFORM }) }
      now).projects.find? (fun x => x.id == proj.id) =
      some ((projStep
        (pushHistory s1 .assign (.assign page.assignedImageId)
          (.assign img) (some (i : Int)) now)
        proj.id
        { months := some (proj.months.set i
            { page with
              assignedImageId := img,
              imageTransform := DEFAULT_IMAGE_TRANSFORM }) }
        now q).1) := by
    rw [find?_updateProject _ proj.id _ now proj.id rfl, hprojid, hs2proj, hqfind]
    rfl
  have hstep := projStep_noregen
    (pushHistory s1 .assign (.assign page.assignedImageId)
      (.assign img) (some (i : Int)) now)
    proj.id
    { months := some (proj.months.set i
        { page with
          assignedImageId := img,
          imageTransform := DEFAULT_IMAGE_TRANSFORM }) }
    now q hqid' rfl hqinv
  refine ⟨_, { page with
      assignedImageId := img, imageTransform := DEFAULT_IMAGE_TRANSFORM },
    by rw [hassign]; exact hfindq, ?_, rfl, rfl⟩
  rw [hstep]
  show ((some (proj.months.set i
      { page with
        assignedImageId := img,
        imageTransform := DEFAULT_IMAGE_TRANSFORM })).getD q.months)[i]? = _
  exact List.getElem?_set_self hibound

/-- Witness for C5 at a concrete input: assigning image `"img"` to page 3 of
the active project of `sampleState1`. -/
theorem assignImageToPage_resets_transform_witness :
    (getActiveProjectM sampleState1 9 = (some sampleProject1, sampleState1) ∧
     jsIndex sampleProject1.months ((3 : Nat) : Int) = some (monthPageDefault 3)) ∧
    ∃ q pg,
      (assignImageToPage sampleState1 ((3 : Nat) : Int) (some "img") 9).projects.find?
        (fun x => x.id == sampleProject1.id) = some q ∧
      q.months[3]? = some pg ∧
      pg.assignedImageId = some "img" ∧
      pg.imageTransform = DEFAULT_IMAGE_TRANSFORM :=
  ⟨⟨rfl, rfl⟩,
   assignImageToPage_resets_transform sampleState1 sampleProject1 sampleState1 3
     (some "img") 9 (monthPageDefault 3) rfl rfl⟩

end Calendars
